import Mathlib

/-!
Shallow embedding of the enrichment-and-reconciliation engine of
`Strict_dataset_creator.py` (class `FinalStrictCreator`), together with the
pure helpers `normalize_issn` and `normalize_openalex_id`.

Python strings are modelled as `List Char` (`PyStr`); `None` / missing
values as `Option`.  Python's ASCII-level string operations
(`replace("-", "")`, `strip()`, `upper()`, `lower()`, `split(",")`) are
modelled character-wise.
-/

/-- A Python string, modelled as a list of characters. -/
abbrev PyStr := List Char

/-- Python `str.isspace` on the ASCII range: the characters stripped by
`str.strip()`. -/
def isPySpace (c : Char) : Bool :=
  c.toNat == 32 || c.toNat == 9 || c.toNat == 10 ||
  c.toNat == 13 || c.toNat == 11 || c.toNat == 12

/-- Python `str.strip()`: remove leading and trailing whitespace. -/
def pyStrip (s : PyStr) : PyStr :=
  ((s.dropWhile isPySpace).reverse.dropWhile isPySpace).reverse

/-- Python `str.upper()` (ASCII fragment). -/
def pyUpper (s : PyStr) : PyStr := s.map Char.toUpper

/-- Python `str.lower()` (ASCII fragment). -/
def pyLower (s : PyStr) : PyStr := s.map Char.toLower

/-- Python `str.replace("-", "")`. -/
def removeDashes (s : PyStr) : PyStr := s.filter (fun c => c != '-')

/-- Function `normalize_issn` (Strict_dataset_creator.py lines 15-18):
`None`/NaN becomes `""`; otherwise `str(x).replace("-", "").strip().upper()`. -/
def normalize_issn : Option PyStr → PyStr
  | none => []
  | some s => pyUpper (pyStrip (removeDashes s))

/-- Function `normalize_openalex_id` (lines 9-12): drop the OpenAlex URL stem and trim. -/
def openalexUrlStem : PyStr := "https://openalex.org/".toList

/-- Python `str.replace(pat, "")`: remove every (non-overlapping,
left-to-right) occurrence of `pat`.  Structural recursion on a fuel bound
(`fuel ≥ s.length` always holds at the call site, so the `0` case with a
non-empty list is unreachable). -/
def removeAllAux (pat : List Char) : Nat → List Char → List Char
  | _, [] => []
  | 0, s => s
  | fuel + 1, c :: rest =>
    if pat.isPrefixOf (c :: rest) ∧ pat ≠ [] then
      removeAllAux pat fuel (List.drop (pat.length - 1) rest)
    else c :: removeAllAux pat fuel rest

def removeAll (pat s : List Char) : List Char := removeAllAux pat s.length s

def normalize_openalex_id : Option PyStr → PyStr
  | none => []
  | some s => pyStrip (removeAll openalexUrlStem s)

/- ### Reference-table loaders (lines 31-53) -/

/-- A loaded CSV table: column name ↦ cell values (`none` = NaN). -/
structure CsvTable where
  cols : List (PyStr × List (Option PyStr))
  deriving DecidableEq

/-- Column lookup, `col in df.columns` / `df[col]`: first column with the given name. -/
def colLookup (t : CsvTable) (name : PyStr) : Option (List (Option PyStr)) :=
  (t.cols.find? (fun p => p.1 == name)).map (fun p => p.2)

/-- Line 46: the fixed list of probed column names. -/
def scopusProbeCols : List PyStr :=
  ["ISSN".toList, "EISSN".toList, "Issn".toList, "issn".toList]

/-- Method `load_scopus_sources` (lines 44-53): probe the fixed column names,
drop NaN cells, normalize each value, keep the 8-character results.
The Python `set` is modelled as a list; only membership is relied upon. -/
def load_scopus_sources (t : CsvTable) : List PyStr :=
  scopusProbeCols.flatMap (fun col =>
    match colLookup t col with
    | none => []
    | some vals =>
      ((vals.filterMap id).map (fun v => normalize_issn (some v))).filter
        (fun c => c.length == 8))

/-- Lines 35-43: a missing or unreadable source file yields the empty set. -/
def load_scopus_sources_opt : Option CsvTable → List PyStr
  | none => []
  | some t => load_scopus_sources t

/-- Method `is_scopus_indexed` (lines 146-152). -/
def is_scopus_indexed (scopus_sources : List PyStr) (source_issn_list : List PyStr) : Bool :=
  if scopus_sources.isEmpty || source_issn_list.isEmpty then false
  else source_issn_list.any (fun issn => scopus_sources.contains (normalize_issn (some issn)))

/- ### Quartile resolver (lines 111-144) -/

/-- One row of a loaded SCImago table: (column name, cell value) pairs. -/
structure ScimagoRow where
  cells : List (PyStr × Option PyStr)
  deriving DecidableEq

def cellLookup (r : ScimagoRow) (name : PyStr) : Option (Option PyStr) :=
  (r.cells.find? (fun p => p.1 == name)).map (fun p => p.2)

def issnWord : PyStr := "issn".toList

/-- Python `needle in hay` on strings: contiguous-substring containment. -/
def containsSubstr (needle hay : PyStr) : Bool :=
  hay.tails.any (fun t => needle.isPrefixOf t)

/-- Lines 122-128: the values of the columns whose lowercased name is or
contains "issn", skipping NaN cells. -/
def rowIssnValues (r : ScimagoRow) : List PyStr :=
  (r.cells.filter (fun p =>
    pyLower p.1 == issnWord || containsSubstr issnWord (pyLower p.1))).filterMap (fun p => p.2)

/-- Python `s.split(",")` followed by `.strip()` on each part (line 131). -/
def splitCommaStrip (s : PyStr) : List PyStr := (s.splitOn ',').map pyStrip

def quartileLabels : List PyStr := ["Q1".toList, "Q2".toList, "Q3".toList, "Q4".toList]

/-- Lines 133-139: the fixed, ordered quartile-column candidates. -/
def quartileColCandidates : List PyStr :=
  ["SJR Quartile".toList, "SJR quartile".toList, "Quartile".toList,
   "sjr quartile".toList, "SJR".toList]

/-- Lines 130-132: some comma-part of some ISSN value of the row normalizes
to the target. -/
def rowMatchesTarget (clean_target : PyStr) (r : ScimagoRow) : Bool :=
  (rowIssnValues r).any (fun raw =>
    (splitCommaStrip raw).any (fun cand => normalize_issn (some cand) == clean_target))

/-- Lines 133-143: first candidate column present with a non-NaN value whose
stripped content is exactly one of the four labels. -/
def rowQuartile (r : ScimagoRow) : Option PyStr :=
  quartileColCandidates.findSome? (fun qc =>
    match cellLookup r qc with
    | some (some v) =>
      let q := pyStrip v
      if quartileLabels.contains q then some q else none
    | _ => none)

/-- Year lookup, `publication_year in self.scimago_data` / `self.scimago_data[year]`. -/
def lookupYear (data : List (Int × List ScimagoRow)) (y : Int) : Option (List ScimagoRow) :=
  (data.find? (fun p => p.1 == y)).map (fun p => p.2)

/-- Method `get_scimago_quartile` (lines 111-144). -/
def get_scimago_quartile (scimago_data : List (Int × List ScimagoRow))
    (source_issn : PyStr) (publication_year : Int) : Option PyStr :=
  if source_issn.isEmpty then none
  else
    match lookupYear scimago_data publication_year with
    | none => none
    | some rows =>
      let clean_target := normalize_issn (some source_issn)
      if clean_target.isEmpty then none
      else rows.findSome? (fun r =>
        if rowMatchesTarget clean_target r then rowQuartile r else none)

/- ### External work records (the parsed OpenAlex JSON, §6 of the spec) -/

structure ConceptEntry where
  display_name : Option PyStr
  deriving DecidableEq

/-- The `issn` field of a venue: a single (possibly comma-separated) string
or an already-multi-valued field (lines 242-249). -/
inductive IssnField where
  | single (s : PyStr)
  | multi (l : List PyStr)
  deriving DecidableEq

structure VenueSource where
  display_name : Option PyStr
  source_type : Option PyStr
  issn_l : Option PyStr
  issn : Option IssnField
  deriving DecidableEq

structure OpenAccessInfo where
  is_oa : Option Bool
  oa_status : Option PyStr
  deriving DecidableEq

structure Work where
  doi : Option PyStr
  title : Option PyStr
  abstract : Option PyStr
  publication_year : Option Int
  publication_date : Option PyStr
  work_type : Option PyStr
  language : Option PyStr
  cited_by_count : Option Int
  open_access : Option OpenAccessInfo
  primary_source : Option VenueSource
  concepts : List ConceptEntry
  topics : List ConceptEntry
  deriving DecidableEq

/- ### The memoized fetcher (lines 90-109) -/

/-- The network's behaviour for one HTTP request. -/
inductive NetResponse where
  | ok (data : Work)
  | failStatus
  | netError
  deriving DecidableEq

/-- The `_openalex_cache` dict (line 29). -/
abbrev Cache := List (PyStr × Work)

def cacheLookup (c : Cache) (k : PyStr) : Option Work :=
  (c.find? (fun p => p.1 == k)).map (fun p => p.2)

def cacheInsert (c : Cache) (k : PyStr) (v : Work) : Cache := c ++ [(k, v)]

structure FetchOutcome where
  result : Option Work
  cache : Cache
  contacted : Bool
  deriving DecidableEq

/-- Method `get_work_details_single` (lines 90-109): empty id → absent, no request;
cache hit → cached value, no request; otherwise one request, memoized only
on success. -/
def get_work_details_single (cache : Cache) (work_id_clean : PyStr)
    (net : NetResponse) : FetchOutcome :=
  if work_id_clean.isEmpty then ⟨none, cache, false⟩
  else
    match cacheLookup cache work_id_clean with
    | some data => ⟨some data, cache, false⟩
    | none =>
      match net with
      | .ok data => ⟨some data, cacheInsert cache work_id_clean data, true⟩
      | .failStatus => ⟨none, cache, true⟩
      | .netError => ⟨none, cache, true⟩

/-- A sequence of fetch calls threaded through the cache. -/
def runFetches (cache : Cache) : List (PyStr × NetResponse) → List FetchOutcome
  | [] => []
  | (wid, net) :: rest =>
    let o := get_work_details_single cache wid net
    o :: runFetches o.cache rest

/-- The cache left after a sequence of fetch calls. -/
def runCache (cache : Cache) : List (PyStr × NetResponse) → Cache
  | [] => cache
  | (wid, net) :: rest => runCache (get_work_details_single cache wid net).cache rest

/- ### The record enricher (lines 179-318) -/

/-- A raw work record (one row of `works_all.csv`); `none` = NaN/missing. -/
structure RawRecord where
  work_id : Option PyStr
  publication_year : Option Int
  publication_date : Option PyStr
  work_type : Option PyStr
  language : Option PyStr
  cited_by_count : Option Int
  open_access_is_oa : Option Bool
  open_access_oa_status : Option PyStr
  multi_institution : Option Bool
  multi_country : Option Bool
  authors_count : Option Int
  institutions_count : Option Int
  deriving DecidableEq

structure EnrichedRow where
  work_id : Option PyStr
  doi : Option PyStr
  title : Option PyStr
  abstract : Option PyStr
  publication_year : Option Int
  publication_date : Option PyStr
  work_type : Option PyStr
  language : Option PyStr
  cited_by_count : Int
  open_access_is_oa : Bool
  open_access_oa_status : PyStr
  source_name : Option PyStr
  source_type : Option PyStr
  source_issn_l : Option PyStr
  source_issn : List PyStr
  multi_institution : Bool
  multi_country : Bool
  authors_count : Int
  institutions_count : Int
  concepts_list : PyStr
  venue_issn_list : PyStr
  is_scopus_indexed : Bool
  scimago_quartile : Option PyStr
  deriving DecidableEq

/-- Python truthiness of an optional string. -/
def pyTruthyStr : Option PyStr → Bool
  | none => false
  | some s => !s.isEmpty

/-- Python `a or b` on optional strings (`None` and `""` are falsy). -/
def pyOrStr (a b : Option PyStr) : Option PyStr :=
  if pyTruthyStr a then a else b

/-- Python `a or b` on optional integers (`None` and `0` are falsy). -/
def pyOrInt (a b : Option Int) : Option Int :=
  match a with
  | some v => if v == 0 then b else some v
  | none => b

/-- Python `";".join(l)`. -/
def joinSemicolon (l : List PyStr) : PyStr := List.intercalate [';'] l

/-- Lines 199-231: the fallback row built purely from the raw record when
the fetch returned absent. -/
def enrichAbsent (orig : RawRecord) : EnrichedRow where
  work_id := orig.work_id
  doi := none
  title := none
  abstract := none
  publication_year := orig.publication_year
  publication_date := orig.publication_date
  work_type := orig.work_type
  language := orig.language
  cited_by_count := orig.cited_by_count.getD 0
  open_access_is_oa := orig.open_access_is_oa.getD false
  open_access_oa_status := orig.open_access_oa_status.getD []
  source_name := none
  source_type := none
  source_issn_l := none
  source_issn := []
  multi_institution := orig.multi_institution.getD false
  multi_country := orig.multi_country.getD false
  authors_count := orig.authors_count.getD 0
  institutions_count := orig.institutions_count.getD 0
  concepts_list := []
  venue_issn_list := []
  is_scopus_indexed := false
  scimago_quartile := none

def emptyVenueSource : VenueSource := ⟨none, none, none, none⟩

/-- Truthiness of the `issn` field (line 242). -/
def issnFieldTruthy : IssnField → Bool
  | .single s => !s.isEmpty
  | .multi l => !l.isEmpty

/-- Lines 239-250: the normalized, deduplicated venue-identifier list.
The Python `set(...)` has interpreter-dependent iteration order; this model
fixes first-occurrence order (`eraseDups`). -/
def buildIssnList (ps : VenueSource) : List PyStr :=
  let base :=
    (if pyTruthyStr ps.issn_l then [ps.issn_l.getD []] else []) ++
    (match ps.issn with
     | none => []
     | some f =>
       if issnFieldTruthy f then
         match f with
         | .single s => (s.splitOn ',').map pyStrip |>.filter (fun x => !x.isEmpty)
         | .multi l => l
       else [])
  ((base.map (fun x => normalize_issn (some x))).eraseDups).filter (fun s => !s.isEmpty)

/-- Lines 278-287: truthy display names of a concept/topic list. -/
def conceptNames (l : List ConceptEntry) : List PyStr :=
  l.filterMap (fun c =>
    match c.display_name with
    | some s => if s.isEmpty then none else some s
    | none => none)

/-- Line 288: drop every case-insensitive `"other"` entry (no deduplication). -/
def allConcepts (w : Work) : List PyStr :=
  (conceptNames w.concepts ++ conceptNames w.topics).filter
    (fun c => pyLower c != "other".toList)

/-- Lines 233-304: the enriched row built from raw record + fetched work. -/
def enrichSuccess (scopus_sources : List PyStr) (scimago_data : List (Int × List ScimagoRow))
    (orig : RawRecord) (work : Work) : EnrichedRow :=
  let ps := work.primary_source.getD emptyVenueSource
  let issn_list := buildIssnList ps
  let pub_year := pyOrInt work.publication_year orig.publication_year
  { work_id := orig.work_id
    doi := work.doi
    title := work.title
    abstract := work.abstract
    publication_year := pub_year
    publication_date := pyOrStr work.publication_date orig.publication_date
    work_type := pyOrStr work.work_type orig.work_type
    language := pyOrStr work.language orig.language
    cited_by_count := work.cited_by_count.getD 0
    open_access_is_oa := ((work.open_access.map (fun o => o.is_oa)).join).getD false
    open_access_oa_status := ((work.open_access.map (fun o => o.oa_status)).join).getD []
    source_name := ps.display_name
    source_type := ps.source_type
    source_issn_l := ps.issn_l
    source_issn := issn_list
    multi_institution := orig.multi_institution.getD false
    multi_country := orig.multi_country.getD false
    authors_count := orig.authors_count.getD 0
    institutions_count := orig.institutions_count.getD 0
    concepts_list := joinSemicolon (allConcepts work)
    venue_issn_list := joinSemicolon issn_list
    is_scopus_indexed := is_scopus_indexed scopus_sources issn_list
    scimago_quartile :=
      match pub_year with
      | some y =>
        if issn_list.isEmpty || y == 0 then none
        else issn_list.findSome? (fun i => get_scimago_quartile scimago_data i y)
      | none => none }

/-- Lines 199-304: process one fetched work (`if not work:` → fallback row). -/
def processWork (scopus_sources : List PyStr) (scimago_data : List (Int × List ScimagoRow))
    (orig : RawRecord) : Option Work → EnrichedRow
  | none => enrichAbsent orig
  | some work => enrichSuccess scopus_sources scimago_data orig work

/-- Method `enhance_all_dataset` (lines 179-318).  Argument `fetch` is the per-identifier
outcome of the memoized fetcher during this run.  For each cleaned id the
original row is looked up as the first raw record with that cleaned id
(`df_all[df_all["work_id_clean"] == wid].iloc[0]`); ids with no such record
are skipped (lines 201-203, 233-235). -/
def enhance_all_dataset (scopus_sources : List PyStr)
    (scimago_data : List (Int × List ScimagoRow)) (fetch : PyStr → Option Work)
    (records : List RawRecord) : List EnrichedRow :=
  (records.map (fun r => normalize_openalex_id r.work_id)).filterMap (fun wid =>
    match records.find? (fun r => normalize_openalex_id r.work_id == wid) with
    | none => none
    | some orig => some (processWork scopus_sources scimago_data orig (fetch wid)))

/- ### The corpus filter (lines 320-345) -/

/-- Lines 331-333: the accepted quartile labels for a threshold. -/
def validQuartiles (quartile_threshold : PyStr) : List PyStr :=
  if quartile_threshold == "Q3".toList then
    ["Q1".toList, "Q2".toList, "Q3".toList]
  else ["Q1".toList, "Q2".toList]

/-- Predicate `scimago_quartile.isin(valid_quartiles)` (null → `False`). -/
def tierAccepted (quartile_threshold : PyStr) (r : EnrichedRow) : Bool :=
  match r.scimago_quartile with
  | some q => (validQuartiles quartile_threshold).contains q
  | none => false

/-- Method `create_strict_dataset` (lines 320-345). -/
def create_strict_dataset (scopus_sources : List PyStr) (df_enhanced : List EnrichedRow)
    (quartile_threshold : PyStr) : List EnrichedRow :=
  let scopus_filtered :=
    if !scopus_sources.isEmpty then
      df_enhanced.filter (fun r => r.is_scopus_indexed)
    else df_enhanced
  scopus_filtered.filter (fun r => tierAccepted quartile_threshold r)

/- ### Concrete fixtures used by witnesses and counterexamples -/

def eissnTable : CsvTable := ⟨[("eissn".toList, [some ("1234-5678".toList)])]⟩

def issnTable : CsvTable := ⟨[("ISSN".toList, [some ("1234-5678".toList)])]⟩

def fixRowQ2 : ScimagoRow :=
  ⟨[("Issn".toList, some ("1234-5678".toList)), ("SJR Quartile".toList, some ("Q2".toList))]⟩

def fixRowQ3 : ScimagoRow :=
  ⟨[("Issn".toList, some ("1234-5678".toList)), ("SJR Quartile".toList, some ("Q3".toList))]⟩

def fixScimago : List (Int × List ScimagoRow) := [(2022, [fixRowQ2, fixRowQ3])]

def emptyWork : Work :=
  ⟨none, none, none, none, none, none, none, none, none, none, [], []⟩

def rawW1 : RawRecord :=
  ⟨some ("W1".toList), some 2022, none, none, none, none, none, none, none, none, none, none⟩

/-- A work whose concepts and topics share the display name "AI". -/
def workDup : Work :=
  { emptyWork with concepts := [⟨some ("AI".toList)⟩], topics := [⟨some ("AI".toList)⟩] }

/-- Modelled from the spec's words, for comparison with the code: the
concept list "deduplicated, semicolon-joined in discovery order". -/
def conceptsListSpec (w : Work) : PyStr :=
  joinSemicolon ((allConcepts w).eraseDups)

/-- A Q3-quartile enriched row with `is_scopus_indexed = false`. -/
def rowQ3NotIndexed : EnrichedRow :=
  { work_id := some ("W1".toList), doi := none, title := none, abstract := none
    publication_year := some 2022, publication_date := none, work_type := none
    language := none, cited_by_count := 0, open_access_is_oa := false
    open_access_oa_status := [], source_name := none, source_type := none
    source_issn_l := none, source_issn := [], multi_institution := false
    multi_country := false, authors_count := 0, institutions_count := 0
    concepts_list := [], venue_issn_list := [], is_scopus_indexed := false
    scimago_quartile := some ("Q3".toList) }

/- ### Character-level lemmas -/

theorem char_eq_iff_toNat {a b : Char} : a = b ↔ a.toNat = b.toNat := by
  constructor
  · intro h; rw [h]
  · intro h
    apply Char.eq_of_val_eq
    apply UInt32.eq_of_toBitVec_eq
    apply BitVec.eq_of_toNat_eq
    exact h

theorem toNat_ofNat_valid (n : Nat) (h : n < 0xd800) : (Char.ofNat n).toNat = n := by
  have hv : n.isValidChar := Or.inl h
  unfold Char.ofNat
  rw [dif_pos hv]
  simp [Char.ofNatAux, Char.toNat, UInt32.toNat]

theorem toNat_toUpper (c : Char) :
    (Char.toUpper c).toNat =
      if 97 ≤ c.toNat ∧ c.toNat ≤ 122 then c.toNat - 32 else c.toNat := by
  unfold Char.toUpper
  by_cases h : 97 ≤ c.toNat ∧ c.toNat ≤ 122
  · rw [if_pos h, if_pos h, toNat_ofNat_valid]
    omega
  · rw [if_neg h, if_neg h]

theorem toUpper_toUpper (c : Char) : (Char.toUpper c).toUpper = Char.toUpper c := by
  apply char_eq_iff_toNat.2
  rw [toNat_toUpper, toNat_toUpper c]
  by_cases h : 97 ≤ c.toNat ∧ c.toNat ≤ 122
  · rw [if_pos h, if_neg (by omega)]
  · rw [if_neg h, if_neg h]

theorem isPySpaceNat_false (m : Nat) (hm : 65 ≤ m) :
    (m == 32 || m == 9 || m == 10 || m == 13 || m == 11 || m == 12) = false := by
  apply Bool.eq_false_iff.2
  intro hcontra
  simp only [Bool.or_eq_true, beq_iff_eq] at hcontra
  omega

theorem isPySpace_toUpper (c : Char) : isPySpace (Char.toUpper c) = isPySpace c := by
  unfold isPySpace
  rw [toNat_toUpper]
  by_cases h : 97 ≤ c.toNat ∧ c.toNat ≤ 122
  · rw [if_pos h, isPySpaceNat_false (c.toNat - 32) (by omega),
      isPySpaceNat_false c.toNat (by omega)]
  · rw [if_neg h]

theorem nondash_toUpper (c : Char) : (Char.toUpper c != '-') = (c != '-') := by
  have hd : ('-' : Char).toNat = 45 := by decide
  by_cases h : 97 ≤ c.toNat ∧ c.toNat ≤ 122
  · have h1 : (Char.toUpper c).toNat = c.toNat - 32 := by rw [toNat_toUpper, if_pos h]
    have h2 : Char.toUpper c ≠ '-' := by
      intro hc; rw [char_eq_iff_toNat] at hc; omega
    have h3 : c ≠ '-' := by
      intro hc; rw [char_eq_iff_toNat] at hc; omega
    rw [bne_iff_ne.2 h2, bne_iff_ne.2 h3]
  · have h1 : Char.toUpper c = c := by
      apply char_eq_iff_toNat.2
      rw [toNat_toUpper, if_neg h]
    rw [h1]

/- ### List-level lemmas for idempotence -/

theorem dropWhile_idem (p : Char → Bool) (l : List Char) :
    (l.dropWhile p).dropWhile p = l.dropWhile p := by
  induction l with
  | nil => rfl
  | cons c t ih =>
    by_cases h : p c
    · simp [List.dropWhile_cons, h, ih]
    · simp [List.dropWhile_cons, h]

theorem dropWhile_prefix_clean (p : Char → Bool) (v w : List Char)
    (h : (v ++ w).dropWhile p = v ++ w) : v.dropWhile p = v := by
  cases v with
  | nil => rfl
  | cons c t =>
    by_cases hc : p c
    · exfalso
      simp [List.dropWhile_cons, hc] at h
      have hlen := congrArg List.length h
      have hle : ((t ++ w).dropWhile p).length ≤ (t ++ w).length :=
        (List.dropWhile_sublist p).length_le
      simp only [List.length_append, List.length_cons] at hlen hle
      omega
    · simp [List.dropWhile_cons, hc]

/-- Stripping leaves a string whose front has no leading whitespace. -/
theorem pyStrip_front_clean (l : List Char) :
    (pyStrip l).dropWhile isPySpace = pyStrip l := by
  unfold pyStrip
  set u := l.dropWhile isPySpace with hu
  have hfront : u.dropWhile isPySpace = u := by rw [hu]; exact dropWhile_idem _ _
  have hsplit : u.reverse.takeWhile isPySpace ++ u.reverse.dropWhile isPySpace
      = u.reverse := List.takeWhile_append_dropWhile isPySpace u.reverse
  have hdecomp : u = (u.reverse.dropWhile isPySpace).reverse
      ++ (u.reverse.takeWhile isPySpace).reverse := by
    conv_lhs => rw [← List.reverse_reverse u, ← hsplit]
    rw [List.reverse_append]
  exact dropWhile_prefix_clean isPySpace _ _ (hdecomp ▸ hfront)

/-- Stripping leaves a string whose back has no trailing whitespace. -/
theorem pyStrip_back_clean (l : List Char) :
    (pyStrip l).reverse.dropWhile isPySpace = (pyStrip l).reverse := by
  unfold pyStrip
  rw [List.reverse_reverse]
  exact dropWhile_idem _ _

theorem pyStrip_of_clean (v : List Char)
    (hf : v.dropWhile isPySpace = v)
    (hb : v.reverse.dropWhile isPySpace = v.reverse) :
    pyStrip v = v := by
  unfold pyStrip
  rw [hf, hb, List.reverse_reverse]

theorem pyStrip_idem (l : List Char) : pyStrip (pyStrip l) = pyStrip l :=
  pyStrip_of_clean _ (pyStrip_front_clean l) (pyStrip_back_clean l)

theorem dropWhile_map_toUpper (p : Char → Bool) (hp : ∀ c, p (Char.toUpper c) = p c)
    (l : List Char) :
    (l.map Char.toUpper).dropWhile p = (l.dropWhile p).map Char.toUpper := by
  induction l with
  | nil => rfl
  | cons c t ih =>
    by_cases h : p c
    · simp [List.dropWhile_cons, hp, h, ih]
    · simp [List.dropWhile_cons, hp, h]

theorem pyStrip_pyUpper (l : List Char) :
    pyStrip (pyUpper l) = pyUpper (pyStrip l) := by
  unfold pyStrip pyUpper
  rw [dropWhile_map_toUpper isPySpace isPySpace_toUpper,
    ← List.map_reverse, dropWhile_map_toUpper isPySpace isPySpace_toUpper,
    ← List.map_reverse]

theorem removeDashes_pyUpper (l : List Char) :
    removeDashes (pyUpper l) = pyUpper (removeDashes l) := by
  unfold removeDashes pyUpper
  induction l with
  | nil => rfl
  | cons c t ih =>
    by_cases h : c = '-'
    · subst h; simp [List.filter_cons, ih]
    · have h1 : (c != '-') = true := by simp [h]
      have h2 := nondash_toUpper c
      rw [h1] at h2
      simp only [List.map_cons, List.filter_cons, h1, h2, if_pos, ih]

theorem removeDashes_idem (l : List Char) :
    removeDashes (removeDashes l) = removeDashes l := by
  unfold removeDashes
  rw [List.filter_filter]
  simp

theorem removeDashes_pyStrip (l : List Char)
    (h : removeDashes l = l) : removeDashes (pyStrip l) = pyStrip l := by
  unfold removeDashes at *
  rw [List.filter_eq_self] at *
  intro a ha
  apply h
  unfold pyStrip at ha
  have h1 : List.Sublist ((l.dropWhile isPySpace).reverse.dropWhile isPySpace)
      (l.dropWhile isPySpace).reverse := List.dropWhile_sublist _
  have h2 : List.Sublist (l.dropWhile isPySpace) l := List.dropWhile_sublist _
  rw [List.mem_reverse] at ha
  exact h2.mem (List.mem_reverse.1 (h1.mem ha))

theorem pyUpper_idem (l : List Char) : pyUpper (pyUpper l) = pyUpper l := by
  unfold pyUpper
  rw [List.map_map]
  apply List.map_congr_left
  intro c _
  exact toUpper_toUpper c

/-- C2: `normalize_issn` always returns a string (empty for missing
input) and is idempotent. -/
theorem normalize_issn_total_idem :
    normalize_issn none = [] ∧
    ∀ x : Option PyStr, normalize_issn (some (normalize_issn x)) = normalize_issn x := by
  refine ⟨rfl, ?_⟩
  intro x
  match x with
  | none => rfl
  | some s =>
    show pyUpper (pyStrip (removeDashes (pyUpper (pyStrip (removeDashes s)))))
      = pyUpper (pyStrip (removeDashes s))
    set w := removeDashes s with hw
    have hwdf : removeDashes w = w := by rw [hw]; exact removeDashes_idem s
    rw [removeDashes_pyUpper, removeDashes_pyStrip w hwdf,
      pyStrip_pyUpper, pyStrip_idem, pyUpper_idem]

/- ### Loader lemmas (C3, C9) -/

theorem mem_load_scopus_sources (t : CsvTable) (x : PyStr) :
    x ∈ load_scopus_sources t ↔
      ∃ col ∈ scopusProbeCols, ∃ vals, colLookup t col = some vals ∧
        ∃ v : PyStr, some v ∈ vals ∧ normalize_issn (some v) = x ∧ x.length = 8 := by
  unfold load_scopus_sources
  rw [List.mem_flatMap]
  constructor
  · rintro ⟨col, hcol, hx⟩
    refine ⟨col, hcol, ?_⟩
    cases hv : colLookup t col with
    | none => rw [hv] at hx; simp at hx
    | some vals =>
      rw [hv] at hx
      refine ⟨vals, rfl, ?_⟩
      rw [List.mem_filter] at hx
      obtain ⟨hx1, hx2⟩ := hx
      rw [List.mem_map] at hx1
      obtain ⟨a, ha, hax⟩ := hx1
      rw [List.mem_filterMap] at ha
      obtain ⟨o, ho, hoa⟩ := ha
      simp only [id_eq] at hoa
      subst hoa
      refine ⟨a, ho, hax, ?_⟩
      rw [beq_iff_eq] at hx2
      exact hx2
  · rintro ⟨col, hcol, vals, hv, v, hmem, hnorm, hlen⟩
    refine ⟨col, hcol, ?_⟩
    rw [hv]
    rw [List.mem_filter]
    constructor
    · rw [List.mem_map]
      refine ⟨v, ?_, hnorm⟩
      rw [List.mem_filterMap]
      exact ⟨some v, hmem, rfl⟩
    · rw [beq_iff_eq]
      exact hlen

/-- C9 (amended): the Scopus registry loader probes exactly the four
column names `ISSN`, `EISSN`, `Issn`, `issn`; the registry holds exactly the
probed non-NaN values whose normalization has 8 characters; a missing or
unreadable source file yields the empty registry. -/
theorem load_scopus_loader_contract :
    (∀ (t : CsvTable) (x : PyStr),
      x ∈ load_scopus_sources t ↔
        ∃ col ∈ scopusProbeCols, ∃ vals, colLookup t col = some vals ∧
          ∃ v : PyStr, some v ∈ vals ∧ normalize_issn (some v) = x ∧ x.length = 8) ∧
    load_scopus_sources_opt none = [] :=
  ⟨mem_load_scopus_sources, rfl⟩

/-- C9 (counterexample): the column name `"eissn"` case-insensitively
contains `"issn"` and holds a value whose normalization has 8 characters,
yet the loader ignores it entirely: the claimed case-insensitive probing
does not happen. -/
theorem load_scopus_case_insensitive_counterexample :
    containsSubstr issnWord (pyLower ("eissn".toList)) = true ∧
    (normalize_issn (some ("1234-5678".toList))).length = 8 ∧
    load_scopus_sources eissnTable = [] := by
  decide

/-- C3 (amended): registry membership is symmetric under
`normalize_issn`: if a probed column holds a value `v` whose normalization
is 8 characters long, then any identifier `w` with the same normalization
(hyphenation, surrounding whitespace and letter case may differ) is
reported as indexed. -/
theorem registry_membership_normalization (t : CsvTable) (col : PyStr)
    (hcol : col ∈ scopusProbeCols) (vals : List (Option PyStr))
    (hv : colLookup t col = some vals) (v : PyStr) (hmem : some v ∈ vals)
    (hlen : (normalize_issn (some v)).length = 8) (w : PyStr)
    (hw : normalize_issn (some w) = normalize_issn (some v)) :
    is_scopus_indexed (load_scopus_sources t) [w] = true := by
  have hx : normalize_issn (some v) ∈ load_scopus_sources t :=
    (mem_load_scopus_sources t _).2 ⟨col, hcol, vals, hv, v, hmem, rfl, hlen⟩
  unfold is_scopus_indexed
  have hne : (load_scopus_sources t).isEmpty = false := by
    cases h : load_scopus_sources t with
    | nil => rw [h] at hx; simp at hx
    | cons a l => rfl
  rw [hne]
  simp only [List.isEmpty_cons, Bool.or_self, Bool.false_or, if_neg]
  rw [if_neg (by simp)]
  rw [List.any_eq_true]
  refine ⟨w, List.mem_singleton.2 rfl, ?_⟩
  rw [hw]
  exact List.elem_iff.2 hx

/-- C3 (counterexample): a registry built from `"1234-5678"` holds
exactly `"12345678"`, but the identifier `"1234 5678 "` normalizes to
`"1234 5678"` (the interior space is kept), so it is NOT reported as
indexed. -/
theorem space_variant_not_indexed_counterexample :
    load_scopus_sources issnTable = ["12345678".toList] ∧
    normalize_issn (some ("1234 5678 ".toList)) = "1234 5678".toList ∧
    is_scopus_indexed (load_scopus_sources issnTable) [("1234 5678 ".toList)] = false := by
  decide

theorem registry_membership_normalization_witness :
    is_scopus_indexed (load_scopus_sources issnTable) [(" 1234-5678 ".toList)] = true :=
  registry_membership_normalization issnTable ("ISSN".toList) (by decide)
    [some ("1234-5678".toList)] rfl ("1234-5678".toList) (by decide) (by decide)
    (" 1234-5678 ".toList) (by decide)

/- ### Quartile resolution (C4) -/

/-- C4: quartile resolution is deterministic and first-match: with a
loaded year table and a non-degenerate target, the result is `some q` iff
the table splits as earlier rows (each either not matching the normalized
target or yielding no valid tier), then a first row that both matches and
carries a valid tier `q`; the result is absent iff no matching row yields a
valid tier. -/
theorem get_scimago_quartile_first_match (data : List (Int × List ScimagoRow))
    (s : PyStr) (y : Int) (rows : List ScimagoRow)
    (hy : lookupYear data y = some rows) (hs : s ≠ [])
    (ht : normalize_issn (some s) ≠ []) (q : PyStr) :
    (get_scimago_quartile data s y = some q ↔
      ∃ l₁ r l₂, rows = l₁ ++ r :: l₂ ∧
        rowMatchesTarget (normalize_issn (some s)) r = true ∧
        rowQuartile r = some q ∧
        ∀ r' ∈ l₁, rowMatchesTarget (normalize_issn (some s)) r' = true →
          rowQuartile r' = none) ∧
    (get_scimago_quartile data s y = none ↔
      ∀ r ∈ rows, rowMatchesTarget (normalize_issn (some s)) r = true →
        rowQuartile r = none) := by
  have hse : s.isEmpty = false := by
    cases s with
    | nil => exact absurd rfl hs
    | cons a l => rfl
  have hte : (normalize_issn (some s)).isEmpty = false := by
    cases h : normalize_issn (some s) with
    | nil => exact absurd h ht
    | cons a l => rfl
  have hred : get_scimago_quartile data s y =
      rows.findSome? (fun r =>
        if rowMatchesTarget (normalize_issn (some s)) r then rowQuartile r else none) := by
    unfold get_scimago_quartile
    rw [hy]
    simp only [hse, hte, Bool.false_eq_true, if_false]
  constructor
  · rw [hred, List.findSome?_eq_some_iff]
    constructor
    · rintro ⟨l₁, r, l₂, rfl, hfr, hprev⟩
      by_cases hm : rowMatchesTarget (normalize_issn (some s)) r
      · rw [if_pos hm] at hfr
        refine ⟨l₁, r, l₂, rfl, hm, hfr, ?_⟩
        intro r' hr' hm'
        have := hprev r' hr'
        rw [if_pos hm'] at this
        exact this
      · rw [if_neg hm] at hfr
        exact absurd hfr (by simp)
    · rintro ⟨l₁, r, l₂, rfl, hm, hq, hprev⟩
      refine ⟨l₁, r, l₂, rfl, ?_, ?_⟩
      · rw [if_pos hm]
        exact hq
      · intro r' hr'
        by_cases hm' : rowMatchesTarget (normalize_issn (some s)) r'
        · rw [if_pos hm']
          exact hprev r' hr' hm'
        · rw [if_neg hm']
  · rw [hred, List.findSome?_eq_none_iff]
    constructor
    · intro h r hr hm
      have := h r hr
      rw [if_pos hm] at this
      exact this
    · intro h r hr
      by_cases hm : rowMatchesTarget (normalize_issn (some s)) r
      · rw [if_pos hm]
        exact h r hr hm
      · rw [if_neg hm]

/-- Two rows match the ISSN `1234-5678` with distinct valid tiers Q2 and Q3;
resolution returns the first row's Q2. -/
theorem get_scimago_quartile_first_match_witness :
    get_scimago_quartile fixScimago ("1234-5678".toList) 2022 = some ("Q2".toList) ∧
    rowQuartile fixRowQ2 = some ("Q2".toList) ∧
    rowQuartile fixRowQ3 = some ("Q3".toList) := by
  refine ⟨?_, by decide, by decide⟩
  have h := (get_scimago_quartile_first_match fixScimago ("1234-5678".toList) 2022
    [fixRowQ2, fixRowQ3] (by decide) (by decide) (by decide) ("Q2".toList)).1
  exact h.2 ⟨[], fixRowQ2, [fixRowQ3], rfl, by decide, by decide,
    by intro r' hr'; simp at hr'⟩

/- ### Fetcher memoization (C1) -/

theorem cacheLookup_insert_self (c : Cache) (k : PyStr) (v : Work)
    (h : cacheLookup c k = none) : cacheLookup (cacheInsert c k v) k = some v := by
  unfold cacheLookup cacheInsert at *
  rw [List.find?_append]
  have hf : c.find? (fun p => p.1 == k) = none := by
    cases hc : c.find? (fun p => p.1 == k) with
    | none => rfl
    | some p => rw [hc] at h; simp at h
  rw [hf]
  simp

theorem cacheLookup_insert_preserve (c : Cache) (k k' : PyStr) (v w : Work)
    (h : cacheLookup c k = some w) : cacheLookup (cacheInsert c k' v) k = some w := by
  unfold cacheLookup cacheInsert at *
  rw [List.find?_append]
  cases hf : c.find? (fun p => p.1 == k) with
  | none => rw [hf] at h; simp at h
  | some p =>
    rw [hf] at h
    simpa using h

theorem fetch_cache_hit (c : Cache) (wid : PyStr) (net : NetResponse) (d : Work)
    (hw : wid ≠ []) (h : cacheLookup c wid = some d) :
    get_work_details_single c wid net = ⟨some d, c, false⟩ := by
  unfold get_work_details_single
  have he : wid.isEmpty = false := by
    cases wid with
    | nil => exact absurd rfl hw
    | cons a l => rfl
  rw [he, h]
  simp

theorem fetch_cache_mono (c : Cache) (wid : PyStr) (net : NetResponse) (k : PyStr) (w : Work)
    (h : cacheLookup c k = some w) :
    cacheLookup (get_work_details_single c wid net).cache k = some w := by
  unfold get_work_details_single
  by_cases he : wid.isEmpty
  · rw [if_pos he]
    exact h
  · rw [if_neg he]
    cases hl : cacheLookup c wid with
    | some d => exact h
    | none =>
      cases net with
      | ok d => exact cacheLookup_insert_preserve c k wid d w h
      | failStatus => exact h
      | netError => exact h

theorem fetch_success_caches (c : Cache) (wid : PyStr) (net : NetResponse) (d : Work)
    (h : (get_work_details_single c wid net).result = some d) :
    cacheLookup (get_work_details_single c wid net).cache wid = some d := by
  by_cases he : wid.isEmpty = true
  · exfalso
    unfold get_work_details_single at h
    rw [if_pos he] at h
    simp at h
  · cases hl : cacheLookup c wid with
    | some w =>
      have hout : get_work_details_single c wid net = ⟨some w, c, false⟩ := by
        unfold get_work_details_single
        rw [if_neg he, hl]
      rw [hout] at h ⊢
      simp only [Option.some.injEq] at h
      show cacheLookup c wid = some d
      rw [hl, h]
    | none =>
      cases net with
      | ok dd =>
        have hout : get_work_details_single c wid (.ok dd)
            = ⟨some dd, cacheInsert c wid dd, true⟩ := by
          unfold get_work_details_single
          rw [if_neg he, hl]
        rw [hout] at h ⊢
        simp only [Option.some.injEq] at h
        show cacheLookup (cacheInsert c wid dd) wid = some d
        rw [← h]
        exact cacheLookup_insert_self c wid dd hl
      | failStatus =>
        exfalso
        have hout : get_work_details_single c wid .failStatus = ⟨none, c, true⟩ := by
          unfold get_work_details_single
          rw [if_neg he, hl]
        rw [hout] at h
        simp at h
      | netError =>
        exfalso
        have hout : get_work_details_single c wid .netError = ⟨none, c, true⟩ := by
          unfold get_work_details_single
          rw [if_neg he, hl]
        rw [hout] at h
        simp at h

theorem runFetches_cached (wid : PyStr) (hw : wid ≠ []) (d : Work)
    (cs : List (PyStr × NetResponse)) :
    ∀ (c : Cache), cacheLookup c wid = some d →
      ∀ p ∈ cs.zip (runFetches c cs), p.1.1 = wid →
        p.2.result = some d ∧ p.2.contacted = false := by
  induction cs with
  | nil =>
    intro c hc p hp
    simp [runFetches] at hp
  | cons hd tl ih =>
    intro c hc p hp hpid
    obtain ⟨w0, n0⟩ := hd
    rw [show runFetches c ((w0, n0) :: tl) =
      (get_work_details_single c w0 n0) ::
        runFetches (get_work_details_single c w0 n0).cache tl from rfl] at hp
    rw [List.zip_cons_cons, List.mem_cons] at hp
    cases hp with
    | inl hp =>
      subst hp
      have hw0 : w0 = wid := hpid
      rw [hw0, fetch_cache_hit c wid n0 d hw hc]
      exact ⟨rfl, rfl⟩
    | inr hp =>
      exact ih _ (fetch_cache_mono c w0 n0 wid d hc) p hp hpid

theorem runCache_append (l₁ l₂ : List (PyStr × NetResponse)) :
    ∀ c, runCache c (l₁ ++ l₂) = runCache (runCache c l₁) l₂ := by
  induction l₁ with
  | nil => intro c; rfl
  | cons hd tl ih =>
    intro c
    obtain ⟨w0, n0⟩ := hd
    exact ih _

/-- C1: fetch memoization: (a) once a fetch call for `wid` has returned a
record, every later call with `wid` — whatever other calls happen in
between — returns that cached record without contacting the source;
(b) a failed fetch (non-200 or transport error) returns absent, leaves the
cache untouched, and a retry with the same identifier contacts the source
again. -/
theorem fetch_memoization_contract (wid : PyStr) (hw : wid ≠ []) :
    (∀ (c0 : Cache) (cs₁ : List (PyStr × NetResponse)) (net : NetResponse) (d : Work)
        (cs₂ : List (PyStr × NetResponse)),
      (get_work_details_single (runCache c0 cs₁) wid net).result = some d →
      ∀ p ∈ cs₂.zip (runFetches (runCache c0 (cs₁ ++ [(wid, net)])) cs₂),
        p.1.1 = wid → p.2.result = some d ∧ p.2.contacted = false) ∧
    (∀ (c : Cache), cacheLookup c wid = none →
      ∀ net ∈ [NetResponse.failStatus, NetResponse.netError],
        get_work_details_single c wid net = ⟨none, c, true⟩ ∧
        ∀ net2, (get_work_details_single
            (get_work_details_single c wid net).cache wid net2).contacted = true) := by
  constructor
  · intro c0 cs₁ net d cs₂ hres p hp hpid
    rw [runCache_append] at hp
    have hcache : cacheLookup (runCache (runCache c0 cs₁) [(wid, net)]) wid = some d := by
      rw [show runCache (runCache c0 cs₁) [(wid, net)] =
        (get_work_details_single (runCache c0 cs₁) wid net).cache from rfl]
      exact fetch_success_caches _ wid net d hres
    exact runFetches_cached wid hw d cs₂ _ hcache p hp hpid
  · intro c hc net hnet
    have he : wid.isEmpty = false := by
      cases wid with
      | nil => exact absurd rfl hw
      | cons a l => rfl
    have hfail : get_work_details_single c wid net = ⟨none, c, true⟩ := by
      unfold get_work_details_single
      rw [he, hc]
      simp only [Bool.false_eq_true, if_false]
      rw [List.mem_cons, List.mem_singleton] at hnet
      rcases hnet with h | h
      · rw [h]
      · rw [h]
    refine ⟨hfail, ?_⟩
    intro net2
    rw [hfail]
    unfold get_work_details_single
    rw [he, hc]
    simp only [Bool.false_eq_true, if_false]
    cases net2 <;> rfl

/-- A failed call for `W1` contacts the source and caches nothing; a
successful call caches the record; the next call returns it without
contact. -/
theorem fetch_memoization_contract_witness :
    (get_work_details_single [(("W1".toList), emptyWork)] ("W1".toList)
        NetResponse.failStatus).result = some emptyWork ∧
    (get_work_details_single [(("W1".toList), emptyWork)] ("W1".toList)
        NetResponse.failStatus).contacted = false ∧
    get_work_details_single [] ("W1".toList) NetResponse.failStatus
        = ⟨none, [], true⟩ ∧
    (get_work_details_single
        (get_work_details_single [] ("W1".toList) NetResponse.failStatus).cache
        ("W1".toList) NetResponse.netError).contacted = true := by
  have hB := (fetch_memoization_contract ("W1".toList) (by decide)).2 [] rfl
    NetResponse.failStatus (by decide)
  have hA := (fetch_memoization_contract ("W1".toList) (by decide)).1 [] []
    (NetResponse.ok emptyWork) emptyWork [(("W1".toList), NetResponse.failStatus)]
    (by decide)
  have hp := hA ((("W1".toList), NetResponse.failStatus),
    get_work_details_single [(("W1".toList), emptyWork)] ("W1".toList)
      NetResponse.failStatus) (by decide) rfl
  exact ⟨hp.1, hp.2, hB.1, hB.2 NetResponse.netError⟩

/- ### Enrichment totality and degraded fields (C5) -/

theorem length_filterMap_all_some {α β : Type} (f : α → Option β) (l : List α)
    (h : ∀ a ∈ l, (f a).isSome) : (l.filterMap f).length = l.length := by
  induction l with
  | nil => rfl
  | cons a t ih =>
    rw [List.filterMap_cons]
    cases hf : f a with
    | none =>
      exfalso
      have := h a (List.mem_cons_self a t)
      rw [hf] at this
      simp at this
    | some b =>
      rw [List.length_cons, List.length_cons]
      rw [ih (fun x hx => h x (List.mem_cons_of_mem a hx))]

/-- C5: enrichment is total: the output has one row per raw record, and
a record whose fetch is absent yields a row built from raw fields only
(first raw record with the same cleaned id), with indexing flag false,
quartile null, source name null, and the original publication year. -/
theorem enhance_total_and_degrades (srcs : List PyStr)
    (data : List (Int × List ScimagoRow)) (fetch : PyStr → Option Work)
    (records : List RawRecord) :
    (enhance_all_dataset srcs data fetch records).length = records.length ∧
    ∀ r ∈ records, fetch (normalize_openalex_id r.work_id) = none →
      ∃ orig, records.find? (fun x =>
          normalize_openalex_id x.work_id == normalize_openalex_id r.work_id) = some orig ∧
        enrichAbsent orig ∈ enhance_all_dataset srcs data fetch records ∧
        (enrichAbsent orig).is_scopus_indexed = false ∧
        (enrichAbsent orig).scimago_quartile = none ∧
        (enrichAbsent orig).source_name = none ∧
        (enrichAbsent orig).publication_year = orig.publication_year := by
  have hfind : ∀ r ∈ records,
      (records.find? (fun x =>
        normalize_openalex_id x.work_id == normalize_openalex_id r.work_id)).isSome := by
    intro r hr
    rw [List.find?_isSome]
    exact ⟨r, hr, by rw [beq_iff_eq]⟩
  constructor
  · unfold enhance_all_dataset
    rw [length_filterMap_all_some, List.length_map]
    intro wid hwid
    rw [List.mem_map] at hwid
    obtain ⟨r, hr, hwr⟩ := hwid
    subst hwr
    have := hfind r hr
    cases hf : records.find? (fun x =>
        normalize_openalex_id x.work_id == normalize_openalex_id r.work_id) with
    | none => rw [hf] at this; simp at this
    | some orig => rfl
  · intro r hr hfetch
    have hs := hfind r hr
    cases hf : records.find? (fun x =>
        normalize_openalex_id x.work_id == normalize_openalex_id r.work_id) with
    | none => rw [hf] at hs; simp at hs
    | some orig =>
      refine ⟨orig, rfl, ?_, rfl, rfl, rfl, rfl⟩
      unfold enhance_all_dataset
      rw [List.mem_filterMap]
      refine ⟨normalize_openalex_id r.work_id, ?_, ?_⟩
      · rw [List.mem_map]
        exact ⟨r, hr, rfl⟩
      · rw [hf, hfetch]
        rfl

theorem enhance_total_and_degrades_witness :
    (enhance_all_dataset [] [] (fun _ => none) [rawW1]).length = 1 ∧
    enrichAbsent rawW1 ∈ enhance_all_dataset [] [] (fun _ => none) [rawW1] ∧
    (enrichAbsent rawW1).is_scopus_indexed = false ∧
    (enrichAbsent rawW1).scimago_quartile = none ∧
    (enrichAbsent rawW1).source_name = none ∧
    (enrichAbsent rawW1).publication_year = some 2022 := by
  have h := enhance_total_and_degrades [] [] (fun _ => none) [rawW1]
  obtain ⟨orig, hfind, hmem, h1, h2, h3, h4⟩ :=
    h.2 rawW1 (List.mem_singleton.2 rfl) rfl
  have ho : orig = rawW1 := by
    have hx : [rawW1].find? (fun x =>
        normalize_openalex_id x.work_id == normalize_openalex_id rawW1.work_id)
        = some rawW1 := List.find?_cons_of_pos _ (by simp)
    rw [hx] at hfind
    exact (Option.some.inj hfind).symm
  subst ho
  exact ⟨h.1, hmem, h1, h2, h3, by rw [h4]; rfl⟩

/- ### Concept list (C7) -/

/-- C7 (counterexample): a work carrying the display name `"AI"` both as
a concept and as a topic yields `concepts_list = "AI;AI"`: the emitted list
is NOT deduplicated, contradicting the claimed union/deduplication. -/
theorem concepts_list_dedup_counterexample :
    (enrichSuccess [] [] rawW1 workDup).concepts_list = "AI;AI".toList ∧
    conceptsListSpec workDup = "AI".toList ∧
    (enrichSuccess [] [] rawW1 workDup).concepts_list ≠ conceptsListSpec workDup := by
  decide

/-- C7 (amended): the concept list is the concatenation (not union) of
the truthy concept display names followed by the truthy topic display
names, with every case-insensitive `"other"` entry removed, semicolon-joined
in encounter order, without deduplication. -/
theorem concepts_list_concat_no_dedup (srcs : List PyStr)
    (data : List (Int × List ScimagoRow)) (orig : RawRecord) (w : Work) :
    (enrichSuccess srcs data orig w).concepts_list =
      joinSemicolon ((conceptNames w.concepts ++ conceptNames w.topics).filter
        (fun c => pyLower c != "other".toList)) ∧
    ∀ c ∈ (conceptNames w.concepts ++ conceptNames w.topics).filter
        (fun c => pyLower c != "other".toList), pyLower c ≠ "other".toList := by
  refine ⟨rfl, ?_⟩
  intro c hc
  rw [List.mem_filter] at hc
  exact bne_iff_ne.1 hc.2

theorem concepts_list_concat_no_dedup_witness :
    (enrichSuccess [] [] rawW1 workDup).concepts_list =
      joinSemicolon ((conceptNames workDup.concepts ++ conceptNames workDup.topics).filter
        (fun c => pyLower c != "other".toList)) ∧
    pyLower ("AI".toList) ≠ "other".toList := by
  refine ⟨(concepts_list_concat_no_dedup [] [] rawW1 workDup).1, ?_⟩
  exact (concepts_list_concat_no_dedup [] [] rawW1 workDup).2 ("AI".toList) (by decide)

/- ### Corpus filter (C6, C10) -/

/-- C6: degraded mode of the corpus filter: with an empty registry the
indexing step is skipped entirely (a record with an accepted tier but
indexing flag false is retained); with a non-empty registry the output is
the indexing-flag filter followed by the tier filter. -/
theorem strict_filter_degraded_mode (srcs : List PyStr) (df : List EnrichedRow)
    (thr : PyStr) :
    (srcs = [] →
      create_strict_dataset srcs df thr = df.filter (fun r => tierAccepted thr r) ∧
      ∀ r ∈ df, tierAccepted thr r = true → r.is_scopus_indexed = false →
        r ∈ create_strict_dataset srcs df thr) ∧
    (srcs ≠ [] →
      create_strict_dataset srcs df thr =
        (df.filter (fun r => r.is_scopus_indexed)).filter
          (fun r => tierAccepted thr r)) := by
  constructor
  · rintro rfl
    constructor
    · rfl
    · intro r hr ht hf
      show r ∈ List.filter (fun r => tierAccepted thr r) df
      rw [List.mem_filter]
      exact ⟨hr, ht⟩
  · intro hne
    have hemp : srcs.isEmpty = false := by
      cases srcs with
      | nil => exact absurd rfl hne
      | cons a l => rfl
    unfold create_strict_dataset
    rw [hemp]
    rfl

theorem strict_filter_degraded_mode_witness :
    create_strict_dataset [] [rowQ3NotIndexed] ("Q3".toList)
        = [rowQ3NotIndexed].filter (fun r => tierAccepted ("Q3".toList) r) ∧
    rowQ3NotIndexed ∈ create_strict_dataset [] [rowQ3NotIndexed] ("Q3".toList) ∧
    create_strict_dataset ["12345678".toList] [rowQ3NotIndexed] ("Q3".toList)
        = ([rowQ3NotIndexed].filter (fun r => r.is_scopus_indexed)).filter
            (fun r => tierAccepted ("Q3".toList) r) := by
  have h := strict_filter_degraded_mode [] [rowQ3NotIndexed] ("Q3".toList)
  have h2 := strict_filter_degraded_mode ["12345678".toList] [rowQ3NotIndexed] ("Q3".toList)
  exact ⟨(h.1 rfl).1,
    (h.1 rfl).2 rowQ3NotIndexed (List.mem_singleton.2 rfl) (by decide) (by decide),
    h2.2 (by simp)⟩

/-- C10: only the exact string `"Q3"` selects the accepted set
`{Q1, Q2, Q3}`; every other threshold value (e.g. `"Q4"`, `"q3"`) yields
`{Q1, Q2}`; membership in the strict output is the (registry-dependent)
indexing step plus a tier in the accepted set, and a null tier is always
excluded. -/
theorem quartile_threshold_exact_string (srcs : List PyStr) (df : List EnrichedRow)
    (thr : PyStr) (r : EnrichedRow) :
    (thr ≠ "Q3".toList → validQuartiles thr = ["Q1".toList, "Q2".toList]) ∧
    validQuartiles ("Q3".toList) = ["Q1".toList, "Q2".toList, "Q3".toList] ∧
    (r ∈ create_strict_dataset srcs df thr ↔
      r ∈ (if srcs.isEmpty then df else df.filter (fun x => x.is_scopus_indexed)) ∧
        ∃ q, r.scimago_quartile = some q ∧ q ∈ validQuartiles thr) ∧
    (r.scimago_quartile = none → r ∉ create_strict_dataset srcs df thr) := by
  have hstep : create_strict_dataset srcs df thr
      = (if srcs.isEmpty then df else df.filter (fun x => x.is_scopus_indexed)).filter
          (fun x => tierAccepted thr x) := by
    unfold create_strict_dataset
    cases srcs with
    | nil => rfl
    | cons a l => rfl
  have hmem : r ∈ create_strict_dataset srcs df thr ↔
      r ∈ (if srcs.isEmpty then df else df.filter (fun x => x.is_scopus_indexed)) ∧
        ∃ q, r.scimago_quartile = some q ∧ q ∈ validQuartiles thr := by
    rw [hstep, List.mem_filter]
    constructor
    · rintro ⟨hr, ht⟩
      refine ⟨hr, ?_⟩
      unfold tierAccepted at ht
      cases hq : r.scimago_quartile with
      | none => rw [hq] at ht; simp at ht
      | some q =>
        rw [hq] at ht
        exact ⟨q, rfl, List.elem_iff.1 ht⟩
    · rintro ⟨hr, q, hq, hqm⟩
      refine ⟨hr, ?_⟩
      unfold tierAccepted
      rw [hq]
      exact List.elem_iff.2 hqm
  refine ⟨?_, by decide, hmem, ?_⟩
  · intro hne
    have hb : (thr == "Q3".toList) = false := beq_eq_false_iff_ne.2 hne
    unfold validQuartiles
    rw [hb]
    rfl
  · intro hq hmemx
    obtain ⟨-, q, hq2, -⟩ := hmem.1 hmemx
    rw [hq] at hq2
    simp at hq2

/-- Lowercase `"q3"` and `"Q4"` both select `{Q1, Q2}`, so a Q3-tier row is
excluded; with the exact `"Q3"` the accepted set is `{Q1, Q2, Q3}`. -/
theorem quartile_threshold_exact_string_witness :
    validQuartiles ("q3".toList) = ["Q1".toList, "Q2".toList] ∧
    validQuartiles ("Q4".toList) = ["Q1".toList, "Q2".toList] ∧
    validQuartiles ("Q3".toList) = ["Q1".toList, "Q2".toList, "Q3".toList] ∧
    rowQ3NotIndexed ∉ create_strict_dataset [] [rowQ3NotIndexed] ("q3".toList) := by
  have h1 := quartile_threshold_exact_string [] [rowQ3NotIndexed] ("q3".toList)
    rowQ3NotIndexed
  have h2 := quartile_threshold_exact_string [] [] ("Q4".toList) rowQ3NotIndexed
  refine ⟨h1.1 (by decide), h2.1 (by decide), h1.2.1, ?_⟩
  intro hmem
  obtain ⟨-, q, hq, hqm⟩ := (h1.2.2.1).1 hmem
  have hq3 : q = "Q3".toList := by
    have : rowQ3NotIndexed.scimago_quartile = some ("Q3".toList) := rfl
    rw [this] at hq
    exact (Option.some.inj hq).symm
  subst hq3
  rw [h1.1 (by decide)] at hqm
  simp at hqm

theorem normalize_issn_total_idem_witness :
    normalize_issn (some (normalize_issn (some (" 1234-5678 ".toList))))
      = normalize_issn (some (" 1234-5678 ".toList)) :=
  normalize_issn_total_idem.2 (some (" 1234-5678 ".toList))

theorem load_scopus_loader_contract_witness :
    "12345678".toList ∈ load_scopus_sources issnTable :=
  (load_scopus_loader_contract.1 issnTable ("12345678".toList)).2
    ⟨"ISSN".toList, by decide, [some ("1234-5678".toList)], rfl,
      "1234-5678".toList, by decide, by decide, by decide⟩
